import Mathlib

/-!
Shallow embedding of the ontology consistency engine of the `custom_kg_svc`
repository (`src/deeppavlov_kg/core/ontology.py`), together with theorems
settling the specification claims about it.

Modelling conventions:
* Python dictionaries are modelled as association lists with Python's
  insertion-order update semantics (`dset` overwrites in place, else appends).
* The pickled `treelib.Tree` holding the kinds hierarchy is modelled as a list
  of nodes (`KTree`); the JSON relationship data model as an association list
  from relationship-kind names to triple lists (`DataModel`).
* The persisted files are modelled as `Option` stores threaded through each
  operation (a call loads the store, mutates an in-memory copy and saves it);
  each operation returns the resulting persisted store together with its
  Python return value or raised exception (`Except PyErr`).
* Python runtime types and values are modelled by `PyType` / `PyVal`, with
  `str(type(v))` rendered by `typeOfStr`.
-/

namespace DeepPavlovKG

/-- Python exception outcomes raised by the embedded code. -/
inductive PyErr where
  | valueError (msg : String)
  | assertionError
  | attributeError (msg : String)
  | nameError (msg : String)
  | indexError
  | keyError
  | recursionError
  | databaseError
  deriving Repr, DecidableEq

/-- Decidable equality of outcomes, for evaluating the embedding at concrete
inputs. -/
instance {ε α : Type} [DecidableEq ε] [DecidableEq α] :
    DecidableEq (Except ε α) := fun x y =>
  match x, y with
  | .ok a, .ok b =>
    if h : a = b then .isTrue (by rw [h]) else .isFalse (by intro hx; cases hx; exact h rfl)
  | .error a, .error b =>
    if h : a = b then .isTrue (by rw [h]) else .isFalse (by intro hx; cases hx; exact h rfl)
  | .ok _, .error _ => .isFalse (by intro hx; cases hx)
  | .error _, .ok _ => .isFalse (by intro hx; cases hx)

/-- Python `d[k]` / `d.get(k)`: the value bound to `k`, if any (bindings are
unique in a Python dict, so the first match is the binding). -/
def dlookup : List (String × α) → String → Option α
  | [], _ => none
  | p :: rest, k => if p.1 == k then some p.2 else dlookup rest k

/-- Python `k in d` on a dict modelled as an association list. -/
def dcontains (m : List (String × α)) (k : String) : Bool :=
  (dlookup m k).isSome

/-- Python `d[k] = v`: overwrite the binding in place if present, else append. -/
def dset (m : List (String × α)) (k : String) (v : α) : List (String × α) :=
  if dcontains m k then m.map (fun p => if p.1 == k then (k, v) else p)
  else m ++ [(k, v)]

/-- Python `d.update(other)`: fold the bindings of `other` into `m`. -/
def dupdate (m other : List (String × α)) : List (String × α) :=
  other.foldl (fun acc p => dset acc p.1 p.2) m

/-- Python `d.pop(k)`: remove the binding of `k`. -/
def dpop (m : List (String × α)) (k : String) : List (String × α) :=
  m.filter (fun p => !(p.1 == k))

/-- The Python types that `Neo4jOntologyConfig._type2str` recognises, plus a
constructor for any other type object. -/
inductive PyType where
  | pstr | pint | pfloat | pbool | pdate | ptime | pdatetime
  | other (s : String)
  deriving Repr, DecidableEq

/-- One entry of `_type2str` (ontology.py lines 117-131): `types.get(item)`
yields the `str(t)` rendering for the seven known types and Python `None`
(modelled by `none`) for anything else. -/
def type2str1 : PyType → Option String
  | .pstr => some "<class 'str'>"
  | .pint => some "<class 'int'>"
  | .pfloat => some "<class 'float'>"
  | .pbool => some "<class 'bool'>"
  | .pdate => some "<class 'datetime.date'>"
  | .ptime => some "<class 'datetime.time'>"
  | .pdatetime => some "<class 'datetime.datetime'>"
  | .other _ => none

/-- `Neo4jOntologyConfig._type2str`: converts a list of types to strings. -/
def type2str (types_to_convert : List PyType) : List (Option String) :=
  types_to_convert.map type2str1

/-- Python runtime values supplied as property values. -/
inductive PyVal where
  | vstr (s : String)
  | vint (n : Int)
  | vfloat
  | vbool (b : Bool)
  | vnone
  deriving Repr, DecidableEq

/-- Python `str(type(v))` for a runtime value. -/
def typeOfStr : PyVal → String
  | .vstr _ => "<class 'str'>"
  | .vint _ => "<class 'int'>"
  | .vfloat => "<class 'float'>"
  | .vbool _ => "<class 'bool'>"
  | .vnone => "<class 'NoneType'>"

/-- One property descriptor dict `{"type": ..., "measurement_unit": ...}`.
The `type` value is an `Option String` because `_type2str` stores Python
`None` for unrecognised types; `munit = none` models the absence of the
`measurement_unit` key (entries created by
`create_property_kinds_of_entity_kind` carry only `type`). -/
structure PropEntry where
  type : Option String
  munit : Option String
  deriving Repr, DecidableEq

/-- A node of the pickled `treelib.Tree`: in all calls made by the source the
tag and the identifier coincide, so a single `id` field models both. -/
structure KNode where
  id : String
  parent : Option String
  properties : List (String × PropEntry)
  deriving Repr, DecidableEq

/-- The pickled ontology kinds hierarchy. -/
structure KTree where
  nodes : List KNode
  deriving Repr, DecidableEq

/-- Lookup of a node by its identifier (identifiers are unique in a
`treelib.Tree`, so the first match is the node). -/
def findNode : List KNode → String → Option KNode
  | [], _ => none
  | n :: rest, k => if n.id == k then some n else findNode rest k

/-- `tree.get_node(k)`. -/
def KTree.getNode (t : KTree) (k : String) : Option KNode :=
  findNode t.nodes k

/-- `tree.create_node(tag=k, identifier=k, parent=parent, data=Kind(props))`
in the case where the identifier is fresh. -/
def KTree.addNode (t : KTree) (k parent : String)
    (props : List (String × PropEntry)) : KTree :=
  ⟨t.nodes ++ [⟨k, some parent, props⟩]⟩

/-- In-place replacement of a node's property dict (the pattern
`kind_node.data.properties.pop/update` followed by saving the tree). -/
def KTree.setProps (t : KTree) (k : String)
    (props : List (String × PropEntry)) : KTree :=
  ⟨t.nodes.map (fun n => if n.id == k then { n with properties := props } else n)⟩

/-- The `_deleted` system property installed on the synthetic root. -/
def deletedEntry : PropEntry := ⟨some "<class 'bool'>", some ""⟩

/-- The fresh tree built by `create_entity_kind` when the pickle file does not
exist: a single root node `"Kind"` carrying the `_deleted` property. -/
def freshKindTree : KTree :=
  ⟨[⟨"Kind", none, [("_deleted", deletedEntry)]⟩]⟩

/-- Loading the hierarchy inside `create_entity_kind`: the persisted tree if
the file exists, otherwise the freshly initialised root-only tree. -/
def loadOrInit (store : Option KTree) : KTree :=
  match store with
  | some t => t
  | none => freshKindTree

/-- The Python return value of `create_entity_kind`, i.e.
`_node2dict(node) = {"kind": node.tag, **node.data.properties}`. -/
structure NodeDict where
  kind : String
  properties : List (String × PropEntry)
  deriving Repr, DecidableEq

/-- `Neo4jOntologyConfig._node2dict`. -/
def node2dict (n : KNode) : NodeDict :=
  ⟨n.id, n.properties⟩

/-- First property loop of `create_entity_kind` (lines 297-300): for each
`(idx, prop)` the entry is replaced by the fresh dict
`{"type": _type2str(kind_property_types)[idx]}`; indexing past the end of the
converted type list is a Python `IndexError`. -/
def typeLoop (acc : List (String × PropEntry)) (names : List String)
    (typesStr : List (Option String)) (idx : Nat) :
    Except PyErr (List (String × PropEntry)) :=
  match names with
  | [] => .ok acc
  | p :: rest =>
    match typesStr[idx]? with
    | none => .error .indexError
    | some t => typeLoop (dset acc p ⟨t, none⟩) rest typesStr (idx + 1)

/-- Second property loop of `create_entity_kind` (lines 301-304): each entry
gets `{"measurement_unit": units[idx]}` merged in.  The dict access
`kind_properties_dict[prop]` happens before the unit-list indexing, matching
Python's evaluation order. -/
def unitLoop (acc : List (String × PropEntry)) (names : List String)
    (units : List String) (idx : Nat) :
    Except PyErr (List (String × PropEntry)) :=
  match names with
  | [] => .ok acc
  | p :: rest =>
    match dlookup acc p with
    | none => .error .keyError
    | some e =>
      match units[idx]? with
      | none => .error .indexError
      | some u => unitLoop (dset acc p { e with munit := some u }) rest units (idx + 1)

/-- Lines 296-304 of `create_entity_kind`: build `kind_properties_dict` from
the property names, converted types and measurement units. -/
def buildPropsDict (names : List String) (typesStr : List (Option String))
    (units : List String) : Except PyErr (List (String × PropEntry)) :=
  match typeLoop [] names typesStr 0 with
  | .error e => .error e
  | .ok d => unitLoop d names units 0

/-- One unfolding of `Neo4jOntologyConfig.create_entity_kind` (lines 238-322),
parameterised by the recursive call used for an absent parent.  Faithful
points worth noting when diffing against the source:
* the `assert` on line 268 compares the (defaulted) type and unit list
  lengths before anything is loaded;
* when the parent is absent (lines 289-295) the code recursively creates the
  parent (persisting it) and rebinds `parent_node` to the returned dict, so
  after rebuilding `kind_properties_dict` the attribute access
  `parent_node.data.properties` on line 305 raises `AttributeError` on the
  dict; the parent created by the recursion stays persisted;
* `kind_properties_dict.update(parent_node.data.properties)` (line 305) lets
  the parent's bindings overwrite same-named child entries;
* a `DuplicatedNodeIdError` (kind already present) is caught: nothing is
  saved and the pre-existing node's dict is returned. -/
def create_entity_kind_step
    (recurse : Option KTree → String → String → List String →
      Option (List PyType) → Option (List String) →
      Option KTree × Except PyErr NodeDict)
    (store : Option KTree) (kind parent : String)
    (kind_properties : List String)
    (kind_property_types : Option (List PyType))
    (kind_property_measurement_units : Option (List String)) :
    Option KTree × Except PyErr NodeDict :=
  let types := kind_property_types.getD (List.replicate kind_properties.length PyType.pstr)
  let units := kind_property_measurement_units.getD (List.replicate kind_properties.length "")
  if types.length ≠ units.length then (store, .error .assertionError)
  else
    let tree := loadOrInit store
    match tree.getNode parent with
    | none =>
      match recurse store parent "Kind" [] none none with
      | (store2, .error e) => (store2, .error e)
      | (store2, .ok _) =>
        match buildPropsDict kind_properties (type2str types) units with
        | .error e => (store2, .error e)
        | .ok _ =>
          (store2, .error (.attributeError "'dict' object has no attribute 'data'"))
    | some parent_node =>
      match buildPropsDict kind_properties (type2str types) units with
      | .error e => (store, .error e)
      | .ok d =>
        let d2 := dupdate d parent_node.properties
        match tree.getNode kind with
        | some n => (store, .ok (node2dict n))
        | none => (some (tree.addNode kind parent d2), .ok ⟨kind, d2⟩)

/-- Fuel-indexed unfolding of the recursion in `create_entity_kind`. -/
def create_entity_kind_fuel :
    Nat → Option KTree → String → String → List String →
      Option (List PyType) → Option (List String) →
      Option KTree × Except PyErr NodeDict
  | 0, store, _, _, _, _, _ => (store, .error .recursionError)
  | n + 1, store, kind, parent, props, types, units =>
    create_entity_kind_step (create_entity_kind_fuel n) store kind parent props types units

/-- `Neo4jOntologyConfig.create_entity_kind`.  The fuel `1000` models
CPython's default recursion limit; reachable calls recurse at most once. -/
def create_entity_kind (store : Option KTree) (kind parent : String)
    (kind_properties : List String)
    (kind_property_types : Option (List PyType))
    (kind_property_measurement_units : Option (List String)) :
    Option KTree × Except PyErr NodeDict :=
  create_entity_kind_fuel 1000 store kind parent kind_properties
    kind_property_types kind_property_measurement_units

/-- `Neo4jOntologyConfig.get_entity_kind` (lines 340-346): the stored property
dict of the kind, or an empty dict (with an error log) when the tree or the
kind is absent. -/
def get_entity_kind (store : Option KTree) (entity_kind : String) :
    List (String × PropEntry) :=
  match store with
  | none => []
  | some t =>
    match t.getNode entity_kind with
    | none => []
    | some n => n.properties

/-- Boolean test for an outcome being a raised `ValueError` (the source's
schema-violation / invalid-argument signal). -/
def isValueError : Except PyErr β → Bool
  | .error (.valueError _) => true
  | _ => false

/-- `Neo4jOntologyConfig._check_entity_kind_properties_validity` inner loop
(lines 162-175): for each `(idx, prop)` the membership check runs first, then
`kind_properties[prop]["type"]` is compared with `str(type(values[idx]))`. -/
def checkProps (kind_properties : List (String × PropEntry))
    (names : List String) (vals : List PyVal) (idx : Nat) :
    Except PyErr Bool :=
  match names with
  | [] => .ok true
  | p :: rest =>
    match dlookup kind_properties p with
    | none =>
      .error (.valueError ("The property '" ++ p ++ "' isn't in properties in ontology graph"))
    | some e =>
      match vals[idx]? with
      | none => .error .indexError
      | some v =>
        if e.type ≠ some (typeOfStr v) then
          .error (.valueError ("Property '" ++ p ++ "' should be of another type"))
        else checkProps kind_properties rest vals (idx + 1)

/-- `Neo4jOntologyConfig._check_entity_kind_properties_validity`
(lines 152-176). -/
def check_entity_kind_properties_validity (store : Option KTree)
    (list_of_property_kinds : List String) (list_of_property_values : List PyVal)
    (entity_kind : String) : Except PyErr Bool :=
  checkProps (get_entity_kind store entity_kind)
    list_of_property_kinds list_of_property_values 0

/-- One `(kind_a, kind_b, property_map)` triple of the relationship data
model. -/
abbrev RelTriple := String × String × List (String × PropEntry)

/-- The JSON ontology data model: relationship-kind name to triple list. -/
abbrev DataModel := List (String × List RelTriple)

/-- The `(kind_a, kind_b)` projections `[rel[:2] for rel in ...]`. -/
def pairsOf (triples : List RelTriple) : List (String × String) :=
  triples.map (fun t => (t.1, t.2.1))

/-- Property loop of `_is_valid_relationship_model` (lines 215-232): a missing
or mistyped relationship property is logged and yields `False` (not an
exception). -/
def checkRelProps (model_properties : List (String × PropEntry))
    (names : List String) (vals : List PyVal) (idx : Nat) :
    Except PyErr Bool :=
  match names with
  | [] => .ok true
  | p :: rest =>
    match dlookup model_properties p with
    | none => .ok false
    | some e =>
      match vals[idx]? with
      | none => .error .indexError
      | some v =>
        if e.type ≠ some (typeOfStr v) then .ok false
        else checkRelProps model_properties rest vals (idx + 1)

/-- Outer loop of `_is_valid_relationship_model` (lines 213-233): every triple
whose `(kind_a, kind_b)` matches exactly has its property map checked. -/
def relTriplesLoop (kind_a kind_b : String) (names : List String)
    (vals : List PyVal) : List RelTriple → Except PyErr Bool
  | [] => .ok true
  | (model_a, model_b, model_properties) :: rest =>
    if model_a == kind_a && model_b == kind_b then
      match checkRelProps model_properties names vals 0 with
      | .ok true => relTriplesLoop kind_a kind_b names vals rest
      | .ok false => .ok false
      | .error e => .error e
    else relTriplesLoop kind_a kind_b names vals rest

/-- `Neo4jOntologyConfig._is_valid_relationship_model` (lines 178-233).  An
empty store or unknown relationship kind returns `False` with an error log;
a `(kind_a, kind_b)` pair that is not registered exactly raises `ValueError`
(line 211, message typo preserved) - there is no ancestor walk. -/
def is_valid_relationship_model (store : Option DataModel)
    (kind_a relationship_kind kind_b : String)
    (rel_property_kinds : List String) (rel_property_values : List PyVal) :
    Except PyErr Bool :=
  match store with
  | none => .ok false
  | some data_model =>
    match dlookup data_model relationship_kind with
    | none => .ok false
    | some triples =>
      if (pairsOf triples).contains (kind_a, kind_b) then
        relTriplesLoop kind_a kind_b rel_property_kinds rel_property_values triples
      else
        .error (.valueError ("The relationship kind '" ++ relationship_kind ++
          "' is not supoorted between entities of kinds (" ++ kind_a ++ ", " ++ kind_b ++ ")"))

/-- `Neo4jOntologyConfig.create_property_kinds_of_entity_kind`
(lines 356-412).  The parameters are named `kind`, `property_kinds` and
`property_types`, but the body's first statement reads `new_property_types`
(and later `new_property_kinds`), names that are neither parameters nor
defined anywhere in the module, so every call raises
`NameError: name 'new_property_types' is not defined` before the stored
hierarchy is touched. -/
def create_property_kinds_of_entity_kind (store : Option KTree) (kind : String)
    (property_kinds : List String) (property_types : Option (List PyType)) :
    Option KTree × Except PyErr NodeDict :=
  (store, .error (.nameError "name 'new_property_types' is not defined"))

/-- Loop of `delete_property_kinds` (lines 422-427): pop each named property
from the kind's own dict, raising `ValueError` as soon as one is absent. -/
def popLoop (props : List (String × PropEntry)) :
    List String → Except PyErr (List (String × PropEntry))
  | [] => .ok props
  | p :: rest =>
    if dcontains props p then popLoop (dpop props p) rest
    else
      .error (.valueError ("The property:'" ++ p ++
        "' does not exist in ontology kinds hierarchy. no property was deleted."))

/-- `Neo4jOntologyConfig.delete_property_kinds` (lines 417-433): the tree is
saved only after the whole loop succeeds, so a mid-loop `ValueError` leaves
the persisted hierarchy unchanged. -/
def delete_property_kinds (store : Option KTree) (entity_kind : String)
    (property_kinds : List String) : Option KTree × Except PyErr Unit :=
  match store with
  | none =>
    (store, .error (.valueError
      "The ontology kinds hierarych is empty or the entity kind doesn't exist. no property was deleted."))
  | some tree =>
    match tree.getNode entity_kind with
    | none =>
      (store, .error (.valueError
        "The ontology kinds hierarych is empty or the entity kind doesn't exist. no property was deleted."))
    | some kind_node =>
      match popLoop kind_node.properties property_kinds with
      | .error e => (store, .error e)
      | .ok props => (some (tree.setProps entity_kind props), .ok ())

/-- `Neo4jOntologyConfig.create_relationship_kind` (lines 442-511): appends
`[kind_a, kind_b, {}]` unless the exact pairing is already registered, in
which case it logs and returns before saving. -/
def create_relationship_kind (store : Option DataModel)
    (entity_kind_a relationship_kind entity_kind_b : String) :
    Option DataModel × Except PyErr Unit :=
  let data_model := store.getD []
  match dlookup data_model relationship_kind with
  | some triples =>
    if (pairsOf triples).contains (entity_kind_a, entity_kind_b) then
      (store, .ok ())
    else
      (some (dset data_model relationship_kind
        (triples ++ [(entity_kind_a, entity_kind_b, [])])), .ok ())
  | none =>
    (some (dset data_model relationship_kind
      [(entity_kind_a, entity_kind_b, [])]), .ok ())

/-- The `for idx, relationship in enumerate(...)` / `pop(idx)` loop of
`delete_relationship_kind` (lines 529-531), with Python's live-iterator
semantics: after `pop` at the cursor the next yield skips one element.  The
fuel is always sufficient because the cursor grows on every step while the
list never grows. -/
def delRelLoopFuel (a b : String) :
    Nat → List RelTriple → Nat → List RelTriple
  | 0, l, _ => l
  | fuel + 1, l, c =>
    match l[c]? with
    | none => l
    | some t =>
      if t.1 == a && t.2.1 == b then delRelLoopFuel a b fuel (l.eraseIdx c) (c + 1)
      else delRelLoopFuel a b fuel l (c + 1)

/-- The whole matching-triple removal loop of `delete_relationship_kind`. -/
def delRelLoop (l : List RelTriple) (a b : String) : List RelTriple :=
  delRelLoopFuel a b (l.length + 1) l 0

/-- `Neo4jOntologyConfig.delete_relationship_kind` (lines 525-537): when the
relationship kind is present, the loop removes matching triples (possibly
none) and the data model is rewritten and a success is logged; a `ValueError`
is raised only for an empty store or an unknown relationship kind. -/
def delete_relationship_kind (store : Option DataModel)
    (entity_kind_a relationship_kind entity_kind_b : String) :
    Option DataModel × Except PyErr Unit :=
  match store with
  | none =>
    (store, .error (.valueError
      "The data model is empty. No relationship kind has been deleted"))
  | some data_model =>
    match dlookup data_model relationship_kind with
    | none =>
      (some data_model, .error (.valueError
        "The given relationship doesn't exist. No relationship kind has been deleted"))
    | some triples =>
      (some (dset data_model relationship_kind
        (delRelLoop triples entity_kind_a entity_kind_b)), .ok ())

/-- Index of the leftmost occurrence of `t` in a character list. -/
def firstInfixIdx (t : List Char) : List Char → Option Nat
  | [] => if t.isEmpty then some 0 else none
  | c :: rest =>
    if t.isPrefixOf (c :: rest) then some 0
    else (firstInfixIdx t rest).map (· + 1)

/-- Python `needle in hay` on strings. -/
def hasSubstr (needle hay : String) : Bool :=
  (firstInfixIdx needle.data hay.data).isSome

/-- Fuel-indexed Python `str.split(sep)` for a non-empty separator, over
character lists.  The fuel strictly exceeds the string length, which bounds
the number of steps, so the fuel never runs out on the wrapper below. -/
def splitSepFuel (sep : List Char) : Nat → List Char → List Char → List (List Char)
  | 0, s, acc => [acc.reverse ++ s]
  | fuel + 1, s, acc =>
    match s with
    | [] => [acc.reverse]
    | c :: rest =>
      if sep.isPrefixOf (c :: rest) then
        acc.reverse :: splitSepFuel sep fuel ((c :: rest).drop sep.length) []
      else splitSepFuel sep fuel rest (c :: acc)

/-- Python `s.split(sep)` for a non-empty separator. -/
def splitSep (sep s : List Char) : List (List Char) :=
  splitSepFuel sep (s.length + 1) s []

/-- Python `sep.join(pieces)`. -/
def joinSep (sep : List Char) : List (List Char) → List Char
  | [] => []
  | [x] => x
  | x :: y :: rest => x ++ sep ++ joinSep sep (y :: rest)

/-- Index of the rightmost occurrence of `t` in a character list. -/
def rfindSub (t s : List Char) : Option Nat :=
  ((List.range (s.length + 1)).filter (fun i => t.isPrefixOf (s.drop i))).getLast?

/-- Index of the last semicolon of a character list. -/
def lastSemiIdx (l : List Char) : Option Nat :=
  ((List.range l.length).filter (fun i => l[i]? == some ';')).getLast?

/-- Removal semantics of `re.split(f"{token}.*;", line)` joined with `""` on
a single line (the pattern's `.` does not match newlines): the leftmost
occurrence of the literal `token` together with everything up to the last
semicolon of the line is excised, provided that semicolon lies at or after
the end of the token; the remainder of the line holds no further semicolon,
hence no further match. -/
def removeMentionInLine (token line : List Char) : List Char :=
  match firstInfixIdx token line with
  | none => line
  | some p =>
    match lastSemiIdx line with
    | none => line
    | some q =>
      if p + token.length ≤ q then line.take p ++ line.drop (q + 1) else line

/-- The full `"".join(re.split(f"<schema#{prop}>.*;", instruction))` step of
`_delete_from_schema` (line 845), applied per line. -/
def pyPatternRemove (token instr : String) : String :=
  String.mk (joinSep ['\n']
    ((splitSep ['\n'] instr.data).map (removeMentionInLine token.data)))

/-- Modelled from the spec: the external TerminusDB client consumed by
`TerminusdbOntologyConfig` (spec section 6, `get_schema_text` /
`write_schema_text`).  `stored` is the schema text the store currently holds
and `accept` is the store's acceptance decision for a replacement text: on
acceptance the text is stored, on rejection the client raises a
`DatabaseError` and the stored text is unchanged (the store rejects e.g. when
live instance data still references a deleted property). -/
structure TDBClient where
  stored : String
  accept : String → Bool

/-- Modelled from the spec: `client.update_triples(graph_type="schema", ...)`
commits the new schema text or raises `DatabaseError`. -/
def TDBClient.update_triples (c : TDBClient) (content : String) :
    Except PyErr TDBClient :=
  if c.accept content then .ok { c with stored := content }
  else .error .databaseError

/-- The literal context block appended by `_get_schema` (lines 678-684). -/
def contextBlock : String :=
  "\n                <terminusdb://context>\n                a sys:Context ;\n                sys:base \"terminusdb:///data/\"^^xsd:string ;\n                sys:schema \"terminusdb:///schema#\"^^xsd:string .\n            "

/-- `TerminusdbOntologyConfig._get_schema` (lines 674-685): the stored schema
text truncated at the last blank line (Python `rfind` yielding `-1` makes the
slice drop the final character), joined with the context block. -/
def get_schema (c : TDBClient) : String :=
  let s := c.stored.data
  let cut :=
    match rfindSub ['\n', '\n'] s with
    | some i => s.take i
    | none => s.take (s.length - 1)
  String.mk (cut ++ ['\n'] ++ contextBlock.data)

/-- The per-instruction inner loop of `_delete_from_schema` (lines 825-845):
an instruction that mentions `<schema#{entity_kind}/{property_kind}/` and is
not a class definition is dropped; in the class definition of `entity_kind`
the `<schema#{property_kind}>...;` mention is excised (after appending a `;`
if the instruction lacks one).  The returned flag is Python's
`add_instruction`. -/
def reduceInstruction (entity_kind : String) (property_kinds : List String)
    (instruction : String) : Bool × String :=
  property_kinds.foldl
    (fun acc property_kind =>
      let ins := acc.2
      if hasSubstr ("<schema#" ++ entity_kind ++ "/" ++ property_kind ++ "/") ins
          && !(hasSubstr "a sys:Class" ins) then
        (false, ins)
      else if hasSubstr ("<schema#" ++ entity_kind ++ ">") ins
          && hasSubstr "a sys:Class" ins then
        let ins2 := if [';'].isSuffixOf ins.data then ins else ins ++ ";"
        (acc.1, pyPatternRemove ("<schema#" ++ property_kind ++ ">") ins2)
      else (acc.1, ins))
    (true, instruction)

/-- The text surgery of `_delete_from_schema` (lines 821-849): split the
schema on `" ."`, rewrite or drop each instruction, and rejoin with `"."`. -/
def reduceSchema (entity_kind : String) (property_kinds : List String)
    (ttl : String) : String :=
  let instructions := (splitSep [' ', '.'] ttl.data).map String.mk
  let newInstructions := instructions.filterMap (fun ins =>
    let r := reduceInstruction entity_kind property_kinds ins
    if r.1 then some r.2 else none)
  String.mk (joinSep ['.'] (newInstructions.map String.data))

/-- `TerminusdbOntologyConfig._delete_from_schema` (lines 815-854): reads the
schema, excises the named fragments and commits the reduced text.  The
`except DatabaseError` handler (lines 853-854) only logs a hint and falls off
the end of the function, so a store rejection yields a normal `None` return
(`.ok none`) and the stored schema is unchanged; no exception reaches the
caller. -/
def delete_from_schema (c : TDBClient) (entity_kind : String)
    (property_kinds : List String) : Except PyErr (Option Unit) × TDBClient :=
  let ttl := get_schema c
  let reduced := reduceSchema entity_kind property_kinds ttl
  match c.update_triples reduced with
  | .ok c2 => (.ok (some ()), c2)
  | .error .databaseError => (.ok none, c)
  | .error e => (.error e, c)


/-! Claim-side definitions: predicates used by the claim statements, and
concrete fixtures used by witnesses and counterexamples. -/

/-- A single property check of `_check_entity_kind_properties_validity`
succeeds: the name is declared in the (inheritance-resolved) property map and
the declared type string equals the runtime type of the value. -/
def propPasses (kind_properties : List (String × PropEntry))
    (pv : String × PyVal) : Bool :=
  match dlookup kind_properties pv.1 with
  | some e => e.type == some (typeOfStr pv.2)
  | none => false

/-- Uniqueness invariant of the relationship data model: for each
relationship kind, no `(kind_a, kind_b)` pairing occurs twice. -/
def uniquePairs (data_model : DataModel) : Prop :=
  ∀ r ts, dlookup data_model r = some ts → (pairsOf ts).Nodup

/-- Fixture: the persisted hierarchy after `create_entity_kind("P", "Kind",
["x"], [str])` starting from no pickle file. -/
def c1Store1 : Option KTree :=
  (create_entity_kind none "P" "Kind" ["x"] (some [PyType.pstr]) none).1

/-- Fixture: `c1Store1` after `create_entity_kind("C", "P", ["x"], [int])` -
the child kind `C` redeclares the inherited property `x` with type `int`. -/
def c1Store2 : Option KTree :=
  (create_entity_kind c1Store1 "C" "P" ["x"] (some [PyType.pint]) none).1

/-- Fixture: the node of a kind `P` declaring property `x` of type `str`
(plus the inherited `_deleted`). -/
def pNode : KNode :=
  ⟨"P", some "Kind", [("x", ⟨some "<class 'str'>", some ""⟩), ("_deleted", deletedEntry)]⟩

/-- Fixture: a hierarchy holding the root and the kind `P`. -/
def pTree : KTree :=
  ⟨[⟨"Kind", none, [("_deleted", deletedEntry)]⟩, pNode]⟩

/-- Fixture: a hierarchy `Kind → A → A2` and `Kind → B`, so `A2` is a
descendant of `A`. -/
def ancestorTree : KTree :=
  ⟨[⟨"Kind", none, [("_deleted", deletedEntry)]⟩,
    ⟨"A", some "Kind", [("_deleted", deletedEntry)]⟩,
    ⟨"A2", some "A", [("_deleted", deletedEntry)]⟩,
    ⟨"B", some "Kind", [("_deleted", deletedEntry)]⟩]⟩

/-- Fixture: a data model registering relationship `R` exactly between
`(A, B)`. -/
def c2DataModel : DataModel := [("R", [("A", "B", [])])]

/-- Fixture: the hierarchy `create_entity_kind("Dog", "Animal")` leaves
behind when called on a root-only tree: the absent parent `Animal` is
persisted as a child of `Kind` before the call dies. -/
def animalTree : KTree :=
  ⟨[⟨"Kind", none, [("_deleted", deletedEntry)]⟩,
    ⟨"Animal", some "Kind", [("_deleted", deletedEntry)]⟩]⟩

/-- Fixture: a declarative-store client that rejects every schema write. -/
def rejectingClient : TDBClient :=
  ⟨"<schema#K> a sys:Class .", fun _ => false⟩

/-! Helper lemmas about the dict and tree models. -/

theorem dlookup_cons (a : String × α) (m : List (String × α)) (k : String) :
    dlookup (a :: m) k = if a.1 == k then some a.2 else dlookup m k := rfl

theorem dlookup_append_of_none (m1 m2 : List (String × α)) (k : String)
    (h : dlookup m1 k = none) :
    dlookup (m1 ++ m2) k = dlookup m2 k := by
  induction m1 with
  | nil => rfl
  | cons a tl ih =>
    rw [dlookup_cons] at h
    rw [List.cons_append, dlookup_cons]
    by_cases ha : (a.1 == k) = true
    · rw [if_pos ha] at h
      simp at h
    · rw [if_neg ha] at h
      rw [if_neg ha]
      exact ih h

theorem dlookup_map_overwrite (m : List (String × α)) (k : String) (v : α)
    (h : dcontains m k = true) :
    dlookup (m.map (fun p => if p.1 == k then (k, v) else p)) k = some v := by
  induction m with
  | nil => simp [dcontains, dlookup] at h
  | cons a tl ih =>
    unfold dcontains at h ih
    rw [dlookup_cons] at h
    rw [List.map_cons]
    by_cases ha : (a.1 == k) = true
    · rw [if_pos ha, dlookup_cons]
      simp
    · rw [if_neg ha] at h
      rw [if_neg ha, dlookup_cons, if_neg ha]
      exact ih h

theorem dlookup_dset_self (m : List (String × α)) (k : String) (v : α) :
    dlookup (dset m k v) k = some v := by
  unfold dset
  by_cases h : dcontains m k
  · rw [if_pos h]
    exact dlookup_map_overwrite m k v h
  · rw [if_neg h]
    have hnone : dlookup m k = none := by
      unfold dcontains at h
      cases hl : dlookup m k
      · rfl
      · rw [hl] at h
        simp at h
    rw [dlookup_append_of_none m _ k hnone, dlookup_cons]
    simp

theorem dlookup_dset_ne (m : List (String × α)) (k k' : String) (v : α)
    (h : (k' == k) = false) :
    dlookup (dset m k v) k' = dlookup m k' := by
  have hk'k : k' ≠ k := by simpa using h
  have hkv : (((k, v) : String × α).1 == k') = false := by
    show (k == k') = false
    simp only [beq_eq_false_iff_ne]
    exact fun hx => hk'k hx.symm
  unfold dset
  by_cases hc : dcontains m k
  · rw [if_pos hc]
    clear hc
    induction m with
    | nil => rfl
    | cons a tl ih =>
      by_cases ha : (a.1 == k) = true
      · have hak : a.1 = k := by simpa using ha
        have h2 : (a.1 == k') = false := by
          rw [hak]
          exact hkv
        rw [List.map_cons, if_pos ha, dlookup_cons, dlookup_cons,
          if_neg (by rw [hkv]; simp), if_neg (by rw [h2]; simp)]
        exact ih
      · rw [List.map_cons, if_neg ha, dlookup_cons, dlookup_cons]
        by_cases h3 : (a.1 == k') = true
        · rw [if_pos h3, if_pos h3]
        · rw [if_neg h3, if_neg h3]
          exact ih
  · rw [if_neg hc]
    clear hc
    induction m with
    | nil =>
      rw [List.nil_append, dlookup_cons, if_neg (by rw [hkv]; simp)]
    | cons a tl ih =>
      rw [List.cons_append, dlookup_cons, dlookup_cons]
      by_cases h3 : (a.1 == k') = true
      · rw [if_pos h3, if_pos h3]
      · rw [if_neg h3, if_neg h3]
        exact ih

theorem dcontains_dset_self (m : List (String × α)) (k : String) (v : α) :
    dcontains (dset m k v) k = true := by
  unfold dcontains
  rw [dlookup_dset_self]
  rfl

theorem dcontains_dset_of (m : List (String × α)) (k k' : String) (v : α)
    (h : dcontains m k' = true) :
    dcontains (dset m k v) k' = true := by
  by_cases hk : (k' == k) = true
  · have hkk : k' = k := by simpa using hk
    subst hkk
    exact dcontains_dset_self m k' v
  · unfold dcontains at h ⊢
    rwa [dlookup_dset_ne m k k' v (by simpa using hk)]

theorem dlookup_dupdate_of_not_mem (m other : List (String × α)) (k : String)
    (h : k ∉ other.map Prod.fst) :
    dlookup (dupdate m other) k = dlookup m k := by
  induction other generalizing m with
  | nil => rfl
  | cons a tl ih =>
    simp only [List.map_cons, List.mem_cons, not_or] at h
    unfold dupdate at ih ⊢
    simp only [List.foldl_cons]
    rw [ih _ h.2, dlookup_dset_ne m a.1 k a.2 (by simp only [beq_eq_false_iff_ne]; exact h.1)]

theorem dlookup_dupdate_of_lookup (m other : List (String × α)) (k : String) (v : α)
    (hn : (other.map Prod.fst).Nodup)
    (h : dlookup other k = some v) :
    dlookup (dupdate m other) k = some v := by
  induction other generalizing m with
  | nil => simp [dlookup] at h
  | cons a tl ih =>
    rw [dlookup_cons] at h
    simp only [List.map_cons, List.nodup_cons] at hn
    unfold dupdate
    simp only [List.foldl_cons]
    by_cases ha : (a.1 == k) = true
    · rw [if_pos ha] at h
      have hak : a.1 = k := by simpa using ha
      have hkn : k ∉ tl.map Prod.fst := hak ▸ hn.1
      show dlookup (dupdate (dset m a.1 a.2) tl) k = some v
      rw [dlookup_dupdate_of_not_mem _ _ _ hkn, hak, dlookup_dset_self]
      exact h
    · rw [if_neg ha] at h
      exact ih (dset m a.1 a.2) hn.2 h

theorem dcontains_dpop_of_false (m : List (String × α)) (p q : String)
    (h : dcontains m p = false) :
    dcontains (dpop m q) p = false := by
  unfold dcontains at h ⊢
  unfold dpop
  induction m with
  | nil => exact h
  | cons a tl ih =>
    rw [dlookup_cons] at h
    rw [List.filter_cons]
    by_cases ha : (a.1 == p) = true
    · rw [if_pos ha] at h
      simp at h
    · rw [if_neg ha] at h
      by_cases hq : (a.1 == q) = true
      · simp only [hq, Bool.not_true, Bool.false_eq_true, if_false]
        exact ih h
      · have hqf : (a.1 == q) = false := by simpa using hq
        simp only [hqf, Bool.not_false, if_true]
        rw [dlookup_cons, if_neg ha]
        exact ih h

theorem dset_eq_self (m : List (String × α)) (k : String) (v : α)
    (hn : (m.map Prod.fst).Nodup)
    (h : dlookup m k = some v) :
    dset m k v = m := by
  have hc : dcontains m k = true := by
    unfold dcontains
    rw [h]
    rfl
  unfold dset
  rw [if_pos hc]
  clear hc
  induction m with
  | nil => rfl
  | cons a tl ih =>
    rw [dlookup_cons] at h
    simp only [List.map_cons, List.nodup_cons] at hn
    rw [List.map_cons]
    by_cases ha : (a.1 == k) = true
    · rw [if_pos ha] at h
      rw [if_pos ha]
      have hak : a.1 = k := by simpa using ha
      injection h with hv
      have hmap : List.map (fun p => if p.1 == k then (k, v) else p) tl = tl := by
        have hne : ∀ b ∈ tl, ((fun p : String × α => if p.1 == k then (k, v) else p) b) = id b := by
          intro b hb
          have hbk : (b.1 == k) = false := by
            simp only [beq_eq_false_iff_ne]
            intro hbk
            exact hn.1 (hak ▸ hbk ▸ List.mem_map_of_mem Prod.fst hb)
          simp [hbk]
        rw [List.map_congr_left hne, List.map_id]
      rw [hmap, ← hak, ← hv]
    · rw [if_neg ha] at h
      rw [if_neg ha, ih hn.2 h]

theorem findNode_cons (n : KNode) (l : List KNode) (k : String) :
    findNode (n :: l) k = if n.id == k then some n else findNode l k := rfl

theorem findNode_append_of_none (l1 l2 : List KNode) (k : String)
    (h : findNode l1 k = none) :
    findNode (l1 ++ l2) k = findNode l2 k := by
  induction l1 with
  | nil => rfl
  | cons n tl ih =>
    rw [findNode_cons] at h
    rw [List.cons_append, findNode_cons]
    by_cases hn : (n.id == k) = true
    · rw [if_pos hn] at h
      simp at h
    · rw [if_neg hn] at h
      rw [if_neg hn]
      exact ih h

theorem findNode_append_of_some (l1 l2 : List KNode) (k : String) (n : KNode)
    (h : findNode l1 k = some n) :
    findNode (l1 ++ l2) k = some n := by
  induction l1 with
  | nil => simp [findNode] at h
  | cons a tl ih =>
    rw [findNode_cons] at h
    rw [List.cons_append, findNode_cons]
    by_cases ha : (a.id == k) = true
    · rw [if_pos ha] at h
      rw [if_pos ha]
      exact h
    · rw [if_neg ha] at h
      rw [if_neg ha]
      exact ih h

theorem getNode_addNode_self (t : KTree) (k parent : String)
    (props : List (String × PropEntry)) (h : t.getNode k = none) :
    (t.addNode k parent props).getNode k = some ⟨k, some parent, props⟩ := by
  show findNode (t.nodes ++ [⟨k, some parent, props⟩]) k = some ⟨k, some parent, props⟩
  rw [findNode_append_of_none _ _ _ h, findNode_cons]
  simp

theorem getNode_addNode_of_some (t : KTree) (j k parent : String)
    (props : List (String × PropEntry)) (n : KNode) (h : t.getNode j = some n) :
    (t.addNode k parent props).getNode j = some n := by
  show findNode (t.nodes ++ [⟨k, some parent, props⟩]) j = some n
  exact findNode_append_of_some _ _ _ _ h

/-! Specifications of the embedded loops. -/

theorem typeLoop_ok (typesStr : List (Option String)) :
    ∀ (names : List String) (acc : List (String × PropEntry)) (idx : Nat),
      idx + names.length ≤ typesStr.length →
      ∃ d, typeLoop acc names typesStr idx = .ok d ∧
        ∀ k, (k ∈ names ∨ dcontains acc k = true) → dcontains d k = true := by
  intro names
  induction names with
  | nil =>
    intro acc idx _
    refine ⟨acc, rfl, fun k hk => ?_⟩
    cases hk with
    | inl h1 => exact absurd h1 (List.not_mem_nil k)
    | inr h2 => exact h2
  | cons p rest ih =>
    intro acc idx h
    have hidx : idx < typesStr.length := by
      simp only [List.length_cons] at h
      omega
    have ht : typesStr[idx]? = some typesStr[idx] := List.getElem?_eq_getElem hidx
    have hstep : typeLoop acc (p :: rest) typesStr idx
        = typeLoop (dset acc p ⟨typesStr[idx], none⟩) rest typesStr (idx + 1) := by
      conv_lhs => rw [typeLoop]
      rw [ht]
    obtain ⟨d, hd, hcontain⟩ := ih (dset acc p ⟨typesStr[idx], none⟩) (idx + 1)
      (by simp only [List.length_cons] at h; omega)
    refine ⟨d, by rw [hstep]; exact hd, ?_⟩
    intro k hk
    apply hcontain
    cases hk with
    | inl hmem =>
      rcases List.mem_cons.mp hmem with h1 | h2
      · right
        subst h1
        exact dcontains_dset_self acc k ⟨typesStr[idx], none⟩
      · left
        exact h2
    | inr hacc =>
      right
      exact dcontains_dset_of _ _ _ _ hacc

theorem unitLoop_ok (units : List String) :
    ∀ (names : List String) (acc : List (String × PropEntry)) (idx : Nat),
      (∀ p ∈ names, dcontains acc p = true) →
      idx + names.length ≤ units.length →
      ∃ d, unitLoop acc names units idx = .ok d := by
  intro names
  induction names with
  | nil =>
    intro acc idx _ _
    exact ⟨acc, rfl⟩
  | cons p rest ih =>
    intro acc idx hcon h
    have hc : dcontains acc p = true := hcon p (List.mem_cons_self p rest)
    obtain ⟨e, he⟩ : ∃ e, dlookup acc p = some e := by
      unfold dcontains at hc
      cases hl : dlookup acc p
      · rw [hl] at hc
        simp at hc
      · exact ⟨_, rfl⟩
    have hidx : idx < units.length := by
      simp only [List.length_cons] at h
      omega
    have hu : units[idx]? = some units[idx] := List.getElem?_eq_getElem hidx
    have hstep : unitLoop acc (p :: rest) units idx
        = unitLoop (dset acc p { e with munit := some units[idx] }) rest units (idx + 1) := by
      conv_lhs => rw [unitLoop]
      rw [he, hu]
    obtain ⟨d, hd⟩ := ih (dset acc p { e with munit := some units[idx] }) (idx + 1)
      (fun q hq => dcontains_dset_of _ _ _ _ (hcon q (List.mem_cons_of_mem p hq)))
      (by simp only [List.length_cons] at h; omega)
    exact ⟨d, by rw [hstep]; exact hd⟩

theorem buildPropsDict_ok (names : List String) (typesStr : List (Option String))
    (units : List String)
    (h1 : names.length ≤ typesStr.length) (h2 : names.length ≤ units.length) :
    ∃ d, buildPropsDict names typesStr units = .ok d := by
  obtain ⟨d1, hd1, hcon⟩ := typeLoop_ok typesStr names [] 0 (by omega)
  obtain ⟨d2, hd2⟩ := unitLoop_ok units names d1 0
    (fun p hp => hcon p (Or.inl hp)) (by omega)
  refine ⟨d2, ?_⟩
  unfold buildPropsDict
  rw [hd1]
  exact hd2

theorem popLoop_error (pl : List String) :
    ∀ (props : List (String × PropEntry)),
      (∃ p ∈ pl, dcontains props p = false) →
      ∃ msg, popLoop props pl = .error (.valueError msg) := by
  induction pl with
  | nil =>
    intro props h
    obtain ⟨p, hp, _⟩ := h
    exact absurd hp (List.not_mem_nil p)
  | cons q rest ih =>
    intro props h
    by_cases hq : dcontains props q = true
    · have hstep : popLoop props (q :: rest) = popLoop (dpop props q) rest := by
        show (if dcontains props q = true then popLoop (dpop props q) rest
          else Except.error (PyErr.valueError ("The property:'" ++ q ++
            "' does not exist in ontology kinds hierarchy. no property was deleted.")))
          = popLoop (dpop props q) rest
        rw [if_pos hq]
      obtain ⟨p, hp, hpc⟩ := h
      rcases List.mem_cons.mp hp with rfl | hmem
      · rw [hq] at hpc
        simp at hpc
      · obtain ⟨msg, hmsg⟩ := ih (dpop props q)
          ⟨p, hmem, dcontains_dpop_of_false props p q hpc⟩
        exact ⟨msg, by rw [hstep]; exact hmsg⟩
    · refine ⟨"The property:'" ++ q ++
        "' does not exist in ontology kinds hierarchy. no property was deleted.", ?_⟩
      show (if dcontains props q = true then popLoop (dpop props q) rest
        else Except.error (PyErr.valueError ("The property:'" ++ q ++
          "' does not exist in ontology kinds hierarchy. no property was deleted.")))
        = Except.error (PyErr.valueError ("The property:'" ++ q ++
          "' does not exist in ontology kinds hierarchy. no property was deleted."))
      rw [if_neg hq]

theorem delRelLoopFuel_no_match (a b : String) :
    ∀ (fuel : Nat) (l : List RelTriple) (c : Nat),
      (∀ t ∈ l, ¬(t.1 = a ∧ t.2.1 = b)) →
      delRelLoopFuel a b fuel l c = l := by
  intro fuel
  induction fuel with
  | zero =>
    intro l c _
    rfl
  | succ f ih =>
    intro l c hno
    unfold delRelLoopFuel
    cases hc : l[c]? with
    | none => rfl
    | some t =>
      have ht : t ∈ l := List.getElem?_mem hc
      have hfalse : (t.1 == a && t.2.1 == b) = false := by
        by_cases h1 : t.1 = a
        · by_cases h2 : t.2.1 = b
          · exact absurd ⟨h1, h2⟩ (hno t ht)
          · simp [h2]
        · simp [h1]
      dsimp only
      rw [hfalse]
      simp only [Bool.false_eq_true, if_false]
      exact ih l (c + 1) hno

theorem delRelLoop_no_match (l : List RelTriple) (a b : String)
    (hno : ∀ t ∈ l, ¬(t.1 = a ∧ t.2.1 = b)) :
    delRelLoop l a b = l :=
  delRelLoopFuel_no_match a b (l.length + 1) l 0 hno

theorem checkProps_spec (kp : List (String × PropEntry)) (vals : List PyVal) :
    ∀ (names : List String) (idx : Nat), idx + names.length ≤ vals.length →
      ((checkProps kp names vals idx = .ok true ↔
        ∀ pv ∈ names.zip (vals.drop idx), propPasses kp pv = true) ∧
       (checkProps kp names vals idx = .ok true ∨
        isValueError (checkProps kp names vals idx) = true)) := by
  intro names
  induction names with
  | nil =>
    intro idx _
    refine ⟨⟨fun _ pv hpv => ?_, fun _ => rfl⟩, Or.inl rfl⟩
    simp at hpv
  | cons p rest ih =>
    intro idx h
    have hidx : idx < vals.length := by
      simp only [List.length_cons] at h
      omega
    have hvidx : vals[idx]? = some vals[idx] := List.getElem?_eq_getElem hidx
    have hdrop : vals.drop idx = vals[idx] :: vals.drop (idx + 1) :=
      List.drop_eq_getElem_cons hidx
    cases hl : dlookup kp p with
    | none =>
      have hstep : checkProps kp (p :: rest) vals idx
          = .error (.valueError ("The property '" ++ p ++
            "' isn't in properties in ontology graph")) := by
        conv_lhs => rw [checkProps]
        rw [hl]
      constructor
      · constructor
        · intro hok
          rw [hstep] at hok
          simp at hok
        · intro hall
          exfalso
          have hpass := hall (p, vals[idx])
            (by rw [hdrop, List.zip_cons_cons]; exact List.mem_cons_self _ _)
          unfold propPasses at hpass
          dsimp only at hpass
          rw [hl] at hpass
          simp at hpass
      · right
        rw [hstep]
        rfl
    | some e =>
      by_cases hty : e.type = some (typeOfStr vals[idx])
      · have hstep : checkProps kp (p :: rest) vals idx
            = checkProps kp rest vals (idx + 1) := by
          conv_lhs => rw [checkProps]
          rw [hl, hvidx]
          dsimp only
          rw [if_neg (not_not_intro hty)]
        obtain ⟨ih1, ih2⟩ := ih (idx + 1) (by simp only [List.length_cons] at h; omega)
        constructor
        · rw [hstep, hdrop, List.zip_cons_cons]
          constructor
          · intro hok pv hpv
            rcases List.mem_cons.mp hpv with rfl | hmem
            · unfold propPasses
              dsimp only
              rw [hl]
              simp [hty]
            · exact ih1.mp hok pv hmem
          · intro hall
            exact ih1.mpr (fun pv hpv => hall pv (List.mem_cons_of_mem _ hpv))
        · rw [hstep]
          exact ih2
      · have hstep : checkProps kp (p :: rest) vals idx
            = .error (.valueError ("Property '" ++ p ++
              "' should be of another type")) := by
          conv_lhs => rw [checkProps]
          rw [hl, hvidx]
          dsimp only
          rw [if_pos hty]
        constructor
        · constructor
          · intro hok
            rw [hstep] at hok
            simp at hok
          · intro hall
            exfalso
            have hpass := hall (p, vals[idx])
              (by rw [hdrop, List.zip_cons_cons]; exact List.mem_cons_self _ _)
            unfold propPasses at hpass
            dsimp only at hpass
            rw [hl] at hpass
            have : e.type = some (typeOfStr vals[idx]) := by simpa using hpass
            exact hty this
        · right
          rw [hstep]
          rfl

theorem create_entity_kind_unfold (store : Option KTree) (kind parent : String)
    (names : List String) (types : Option (List PyType)) (units : Option (List String)) :
    create_entity_kind store kind parent names types units
      = create_entity_kind_step (create_entity_kind_fuel 999) store kind parent names types units := by
  show create_entity_kind_fuel 1000 store kind parent names types units = _
  rw [show (1000 : Nat) = 999 + 1 from rfl]
  rfl

theorem isValueError_iff (r : Except PyErr β) :
    isValueError r = true ↔ ∃ msg, r = .error (.valueError msg) := by
  cases r with
  | ok a => simp [isValueError]
  | error e => cases e <;> simp [isValueError]

/-! Theorems settling the specification claims. -/

/-- Claim C1, counterexample.  Starting from an empty store, the kind `P` is
created with property `x` of type `str`, then the kind `C` is created as a
child of `P` redeclaring `x` with type `int`.  The stored property map of `C`
keeps the parent's `str` entry for `x`, not the child's own `int`
definition - `kind_properties_dict.update(parent_node.data.properties)`
(ontology.py line 305) lets the ancestor overwrite the child on name
collision, refuting the claim that the child's own definition takes
precedence. -/
theorem create_entity_kind_child_definition_lost :
    dlookup (get_entity_kind c1Store2 "C") "x" = some ⟨some "<class 'str'>", some ""⟩ ∧
    dlookup (get_entity_kind c1Store2 "C") "x" ≠ some ⟨some "<class 'int'>", some ""⟩ :=
  ⟨by decide, by decide⟩

/-- Claim C1 (amended): on a property-name collision between a new kind and
its parent, the property map stored for the new kind (and returned by
`get_entity_kind`) contains the parent's definition for that name - the
ancestor's definition takes precedence over the kind's own one. -/
theorem create_entity_kind_parent_entry_wins
    (tree : KTree) (parent_node : KNode) (kind parent p : String) (e : PropEntry)
    (names : List String) (ts : List PyType)
    (hpar : tree.getNode parent = some parent_node)
    (hnodup : (parent_node.properties.map Prod.fst).Nodup)
    (hp : dlookup parent_node.properties p = some e)
    (hcollide : p ∈ names)
    (hnew : tree.getNode kind = none)
    (hlen : ts.length = names.length) :
    dlookup (get_entity_kind
      (create_entity_kind (some tree) kind parent names (some ts) none).1 kind) p
      = some e := by
  obtain ⟨d, hbd⟩ := buildPropsDict_ok names (type2str ts) (List.replicate names.length "")
    (by unfold type2str; rw [List.length_map, hlen]) (by rw [List.length_replicate])
  rw [create_entity_kind_unfold]
  unfold create_entity_kind_step
  dsimp only [loadOrInit, Option.getD]
  rw [if_neg (not_not_intro (by rw [hlen, List.length_replicate])), hpar]
  dsimp only
  rw [hbd]
  dsimp only
  rw [hnew]
  dsimp only
  unfold get_entity_kind
  dsimp only
  rw [getNode_addNode_self tree kind parent _ hnew]
  exact dlookup_dupdate_of_lookup d parent_node.properties p e hnodup hp

/-- Witness for the amended claim C1 at a concrete hierarchy. -/
theorem create_entity_kind_parent_entry_wins_witness :
    dlookup (get_entity_kind
      (create_entity_kind (some pTree) "C" "P" ["x"] (some [PyType.pint]) none).1 "C") "x"
      = some ⟨some "<class 'str'>", some ""⟩ :=
  create_entity_kind_parent_entry_wins pTree pNode "C" "P" "x"
    ⟨some "<class 'str'>", some ""⟩ ["x"] [PyType.pint]
    (by decide) (by decide) (by decide) (by decide) (by decide) (by decide)

/-- Claim C2, counterexample.  The kinds hierarchy has `A2` as a child of
`A`, and the data model registers `R` exactly between `(A, B)`; validating
`(A2, R, B)` nevertheless raises a schema violation (`ValueError`) - the
Neo4j validator consults no ancestor information at all, refuting the claim
that validation resolves to the registered ancestor pair and never fails. -/
theorem neo4j_validation_no_ancestor_walk_cex :
    ancestorTree.getNode "A2" = some ⟨"A2", some "A", [("_deleted", deletedEntry)]⟩ ∧
    isValueError (is_valid_relationship_model (some c2DataModel) "A2" "R" "B" [] []) = true :=
  ⟨by decide, by decide⟩

/-- Claim C2 (amended): the Neo4j relationship validator performs no ancestor
walk - whenever the exact `(kind_a, kind_b)` pair is missing from the
relationship kind's registered pairs it raises a schema violation, whatever
the kinds hierarchy says about ancestors. -/
theorem neo4j_validation_requires_exact_pair
    (data_model : DataModel) (triples : List RelTriple)
    (kind_a relationship_kind kind_b : String)
    (names : List String) (vals : List PyVal)
    (hrel : dlookup data_model relationship_kind = some triples)
    (habs : (pairsOf triples).contains (kind_a, kind_b) = false) :
    is_valid_relationship_model (some data_model) kind_a relationship_kind kind_b names vals
      = .error (.valueError ("The relationship kind '" ++ relationship_kind ++
          "' is not supoorted between entities of kinds (" ++ kind_a ++ ", " ++ kind_b ++ ")")) := by
  unfold is_valid_relationship_model
  dsimp only
  rw [hrel]
  dsimp only
  rw [if_neg (by rw [habs]; simp)]

/-- Witness for the amended claim C2 at a concrete data model. -/
theorem neo4j_validation_requires_exact_pair_witness :
    is_valid_relationship_model (some c2DataModel) "A2" "R" "B" [] []
      = .error (.valueError ("The relationship kind '" ++ "R" ++
          "' is not supoorted between entities of kinds (" ++ "A2" ++ ", " ++ "B" ++ ")")) :=
  neo4j_validation_requires_exact_pair c2DataModel [("A", "B", [])] "A2" "R" "B" [] []
    (by decide) (by decide)

/-- Claim C3 (code bug).  On a store holding only the root kind, creating
`Dog` under the absent parent `Animal` does create and persist `Animal` as a
child of `Kind` (with a warning log), but the call then raises
`AttributeError`: line 291 rebinds `parent_node` to the dict returned by the
recursive call, so line 305's `parent_node.data.properties` fails and `Dog`
is never created, contradicting the claim (and the code's own intent) that
the operation succeeds. -/
theorem create_entity_kind_missing_parent_raises :
    create_entity_kind (some freshKindTree) "Dog" "Animal" [] none none
      = (some animalTree, .error (.attributeError "'dict' object has no attribute 'data'")) := by
  decide

/-- Claim C4: entity-property validation returns success exactly when every
named property is declared on the kind's stored (inheritance-resolved)
property map with a declared type string equal to the runtime type of the
supplied value, and fails with a schema violation (`ValueError`) exactly
otherwise. -/
theorem validate_entity_properties_iff
    (store : Option KTree) (entity_kind : String)
    (names : List String) (vals : List PyVal)
    (h : names.length ≤ vals.length) :
    (check_entity_kind_properties_validity store names vals entity_kind = .ok true ↔
      ∀ pv ∈ names.zip vals, propPasses (get_entity_kind store entity_kind) pv = true) ∧
    (isValueError (check_entity_kind_properties_validity store names vals entity_kind) = true ↔
      ¬ ∀ pv ∈ names.zip vals, propPasses (get_entity_kind store entity_kind) pv = true) := by
  have hspec := checkProps_spec (get_entity_kind store entity_kind) vals names 0 (by omega)
  rw [List.drop_zero] at hspec
  unfold check_entity_kind_properties_validity
  refine ⟨hspec.1, ?_, ?_⟩
  · intro herr hall
    have hok := hspec.1.mpr hall
    rw [hok] at herr
    simp [isValueError] at herr
  · intro hnall
    rcases hspec.2 with hok | herr
    · exact absurd (hspec.1.mp hok) hnall
    · exact herr

/-- Witness for claim C4: on the root-only hierarchy, validating the declared
`_deleted` property with a boolean value succeeds. -/
theorem validate_entity_properties_iff_witness :
    check_entity_kind_properties_validity (some freshKindTree)
      ["_deleted"] [PyVal.vbool true] "Kind" = .ok true :=
  (validate_entity_properties_iff (some freshKindTree) "Kind"
    ["_deleted"] [PyVal.vbool true] (by decide)).1.mpr (by decide)

/-- Claim C5, counterexample.  With the absent parent `Animal` on a root-only
store, the first `create_entity_kind("Dog", "Animal")` call persists `Animal`
and dies with `AttributeError` before creating `Dog`; an identical second
call then succeeds and adds `Dog`, so calling twice does not leave the
persisted tree in the state that calling once does. -/
theorem create_entity_kind_not_idempotent_missing_parent :
    (create_entity_kind
        (create_entity_kind (some freshKindTree) "Dog" "Animal" [] none none).1
        "Dog" "Animal" [] none none).1
      ≠ (create_entity_kind (some freshKindTree) "Dog" "Animal" [] none none).1 := by
  decide

/-- Claim C5 (amended): whenever the parent is present in the loaded (or
freshly initialised) tree, `create_entity_kind` is idempotent - a second
call with identical arguments returns the first call's store and value pair
unchanged: the persisted tree is as after one call, nothing is overwritten,
and the existing node's dict is returned. -/
theorem create_entity_kind_idempotent
    (store : Option KTree) (kind parent : String) (names : List String)
    (types : Option (List PyType)) (units : Option (List String))
    (h : ((loadOrInit store).getNode parent).isSome = true) :
    create_entity_kind (create_entity_kind store kind parent names types units).1
        kind parent names types units
      = create_entity_kind store kind parent names types units := by
  obtain ⟨pnode, hpar⟩ : ∃ n, (loadOrInit store).getNode parent = some n := by
    cases hg : (loadOrInit store).getNode parent with
    | none => rw [hg] at h; simp at h
    | some n => exact ⟨n, rfl⟩
  by_cases hlen : (types.getD (List.replicate names.length PyType.pstr)).length
      ≠ (units.getD (List.replicate names.length "")).length
  · have h1 : create_entity_kind store kind parent names types units
        = (store, .error .assertionError) := by
      rw [create_entity_kind_unfold]
      unfold create_entity_kind_step
      dsimp only
      rw [if_pos hlen]
    rw [h1]
    exact h1
  · have hlen2 : (types.getD (List.replicate names.length PyType.pstr)).length
        = (units.getD (List.replicate names.length "")).length := not_not.mp hlen
    cases hbd : buildPropsDict names
        (type2str (types.getD (List.replicate names.length PyType.pstr)))
        (units.getD (List.replicate names.length "")) with
    | error e =>
      have h1 : create_entity_kind store kind parent names types units
          = (store, .error e) := by
        rw [create_entity_kind_unfold]
        unfold create_entity_kind_step
        dsimp only
        rw [if_neg (not_not_intro hlen2), hpar]
        dsimp only
        rw [hbd]
      rw [h1]
      exact h1
    | ok d =>
      cases hk : (loadOrInit store).getNode kind with
      | some n =>
        have h1 : create_entity_kind store kind parent names types units
            = (store, .ok (node2dict n)) := by
          rw [create_entity_kind_unfold]
          unfold create_entity_kind_step
          dsimp only
          rw [if_neg (not_not_intro hlen2), hpar]
          dsimp only
          rw [hbd]
          dsimp only
          rw [hk]
        rw [h1]
        exact h1
      | none =>
        have h1 : create_entity_kind store kind parent names types units
            = (some ((loadOrInit store).addNode kind parent (dupdate d pnode.properties)),
               .ok ⟨kind, dupdate d pnode.properties⟩) := by
          rw [create_entity_kind_unfold]
          unfold create_entity_kind_step
          dsimp only
          rw [if_neg (not_not_intro hlen2), hpar]
          dsimp only
          rw [hbd]
          dsimp only
          rw [hk]
        have hpar2 : (loadOrInit (some ((loadOrInit store).addNode kind parent
            (dupdate d pnode.properties)))).getNode parent = some pnode := by
          show ((loadOrInit store).addNode kind parent
            (dupdate d pnode.properties)).getNode parent = some pnode
          exact getNode_addNode_of_some _ _ _ _ _ _ hpar
        have hk2 : (loadOrInit (some ((loadOrInit store).addNode kind parent
            (dupdate d pnode.properties)))).getNode kind
            = some ⟨kind, some parent, dupdate d pnode.properties⟩ := by
          show ((loadOrInit store).addNode kind parent
            (dupdate d pnode.properties)).getNode kind = _
          exact getNode_addNode_self _ _ _ _ hk
        have h2 : create_entity_kind
            (some ((loadOrInit store).addNode kind parent (dupdate d pnode.properties)))
            kind parent names types units
            = (some ((loadOrInit store).addNode kind parent (dupdate d pnode.properties)),
               .ok ⟨kind, dupdate d pnode.properties⟩) := by
          rw [create_entity_kind_unfold]
          unfold create_entity_kind_step
          dsimp only
          rw [if_neg (not_not_intro hlen2), hpar2]
          dsimp only
          rw [hbd]
          dsimp only
          rw [hk2]
          rfl
        rw [h1]
        exact h2

/-- Witness for the amended claim C5 at a concrete input with the parent
present. -/
theorem create_entity_kind_idempotent_witness :
    create_entity_kind (create_entity_kind (some freshKindTree) "Dog" "Kind" [] none none).1
        "Dog" "Kind" [] none none
      = create_entity_kind (some freshKindTree) "Dog" "Kind" [] none none :=
  create_entity_kind_idempotent (some freshKindTree) "Dog" "Kind" [] none none (by decide)

/-- Claim C6: `delete_property_kinds` fails with an invalid-argument error
(`ValueError`) whenever some named property is absent from the kind's own
property map, and on that failure the persisted hierarchy is exactly
unchanged (the tree is saved only after the whole loop succeeds).  In
particular a second deletion of an already-deleted property fails. -/
theorem delete_property_kinds_missing_property
    (tree : KTree) (kind_node : KNode) (entity_kind : String)
    (property_kinds : List String) (p : String)
    (hnode : tree.getNode entity_kind = some kind_node)
    (hp : p ∈ property_kinds)
    (habs : dcontains kind_node.properties p = false) :
    (delete_property_kinds (some tree) entity_kind property_kinds).1 = some tree ∧
    isValueError (delete_property_kinds (some tree) entity_kind property_kinds).2 = true := by
  obtain ⟨msg, hmsg⟩ := popLoop_error property_kinds kind_node.properties ⟨p, hp, habs⟩
  unfold delete_property_kinds
  dsimp only
  rw [hnode]
  dsimp only
  rw [hmsg]
  exact ⟨rfl, rfl⟩

/-- Witness for claim C6: deleting the undeclared property `nope` from the
root kind fails and leaves the store unchanged. -/
theorem delete_property_kinds_missing_property_witness :
    (delete_property_kinds (some freshKindTree) "Kind" ["nope"]).1 = some freshKindTree ∧
    isValueError (delete_property_kinds (some freshKindTree) "Kind" ["nope"]).2 = true :=
  delete_property_kinds_missing_property freshKindTree
    ⟨"Kind", none, [("_deleted", deletedEntry)]⟩ "Kind" ["nope"] "nope"
    (by decide) (by decide) (by decide)

/-- Claim C7 (code bug).  The body of
`Neo4jOntologyConfig.create_property_kinds_of_entity_kind` refers to
`new_property_types` and `new_property_kinds`, names that are neither its
parameters (`kind`, `property_kinds`, `property_types`) nor defined
anywhere, so every call raises `NameError` before touching the stored
hierarchy - the function can never append or overwrite any property entry,
contradicting its own docstring and the claim. -/
theorem create_property_kinds_always_name_error
    (store : Option KTree) (kind : String) (property_kinds : List String)
    (property_types : Option (List PyType)) :
    create_property_kinds_of_entity_kind store kind property_kinds property_types
      = (store, .error (.nameError "name 'new_property_types' is not defined")) := rfl

/-- Claim C8: `create_relationship_kind` keeps `(relationship_kind, kind_a,
kind_b)` triples unique - when the exact pairing is already registered the
call is a no-op leaving the persisted data model unchanged; when it is
absent the triple is appended with an empty property map (creating the
relationship-kind entry if needed); and the pairwise-uniqueness invariant is
preserved. -/
theorem create_relationship_kind_triple_unique
    (data_model : DataModel) (a rel b : String) :
    (∀ ts, dlookup data_model rel = some ts →
      ((pairsOf ts).contains (a, b) = true →
        create_relationship_kind (some data_model) a rel b = (some data_model, .ok ())) ∧
      ((pairsOf ts).contains (a, b) = false →
        create_relationship_kind (some data_model) a rel b
          = (some (dset data_model rel (ts ++ [(a, b, [])])), .ok ()))) ∧
    (dlookup data_model rel = none →
      create_relationship_kind (some data_model) a rel b
        = (some (dset data_model rel [(a, b, [])]), .ok ())) ∧
    (uniquePairs data_model →
      uniquePairs ((create_relationship_kind (some data_model) a rel b).1.getD [])) := by
  refine ⟨?_, ?_, ?_⟩
  · intro ts hts
    constructor
    · intro hcon
      unfold create_relationship_kind
      dsimp only [Option.getD]
      rw [hts]
      dsimp only
      rw [if_pos hcon]
    · intro hcon
      unfold create_relationship_kind
      dsimp only [Option.getD]
      rw [hts]
      dsimp only
      rw [if_neg (by rw [hcon]; simp)]
  · intro hnone
    unfold create_relationship_kind
    dsimp only [Option.getD]
    rw [hnone]
  · intro hu
    cases hts : dlookup data_model rel with
    | none =>
      have heq : create_relationship_kind (some data_model) a rel b
          = (some (dset data_model rel [(a, b, [])]), .ok ()) := by
        unfold create_relationship_kind
        dsimp only [Option.getD]
        rw [hts]
      rw [heq]
      intro r ts' hts'
      dsimp only [Option.getD] at hts'
      by_cases hr : (r == rel) = true
      · have hrr : r = rel := by simpa using hr
        rw [hrr] at hts'
        rw [dlookup_dset_self] at hts'
        cases hts'
        simp [pairsOf]
      · rw [dlookup_dset_ne _ _ _ _ (by simpa using hr)] at hts'
        exact hu r ts' hts'
    | some ts =>
      by_cases hcon : (pairsOf ts).contains (a, b) = true
      · have heq : create_relationship_kind (some data_model) a rel b
            = (some data_model, .ok ()) := by
          unfold create_relationship_kind
          dsimp only [Option.getD]
          rw [hts]
          dsimp only
          rw [if_pos hcon]
        rw [heq]
        exact hu
      · have hconf : (pairsOf ts).contains (a, b) = false := by simpa using hcon
        have heq : create_relationship_kind (some data_model) a rel b
            = (some (dset data_model rel (ts ++ [(a, b, [])])), .ok ()) := by
          unfold create_relationship_kind
          dsimp only [Option.getD]
          rw [hts]
          dsimp only
          rw [if_neg (by rw [hconf]; simp)]
        rw [heq]
        intro r ts' hts'
        dsimp only [Option.getD] at hts'
        by_cases hr : (r == rel) = true
        · have hrr : r = rel := by simpa using hr
          rw [hrr] at hts'
          rw [dlookup_dset_self] at hts'
          cases hts'
          have hnd : (pairsOf ts).Nodup := hu rel ts hts
          have hnm : (a, b) ∉ pairsOf ts := by
            intro hmem
            have : (pairsOf ts).contains (a, b) = true := by
              unfold List.contains
              exact List.elem_iff.mpr hmem
            rw [hconf] at this
            cases this
          unfold pairsOf at hnd hnm ⊢
          rw [List.map_append]
          rw [List.nodup_append]
          refine ⟨hnd, by simp, ?_⟩
          intro x hx
          simp only [List.map_cons, List.map_nil, List.mem_singleton]
          intro hx2
          subst hx2
          exact hnm hx
        · rw [dlookup_dset_ne _ _ _ _ (by simpa using hr)] at hts'
          exact hu r ts' hts'

/-- Witness for claim C8: re-registering the already-present pairing
`(A, R, B)` leaves the persisted data model unchanged. -/
theorem create_relationship_kind_triple_unique_witness :
    create_relationship_kind (some c2DataModel) "A" "R" "B" = (some c2DataModel, .ok ()) :=
  ((create_relationship_kind_triple_unique c2DataModel "A" "R" "B").1
    [("A", "B", [])] (by decide)).1 (by decide)

/-- Claim C9, counterexample.  With a client whose store rejects every
write, `_delete_from_schema` returns normally with Python `None`
(`Except.ok none`) - the `DatabaseError` is caught and only logged, so no
store-error is surfaced to the caller, refuting the claim that the operation
fails; the stored schema text is unchanged. -/
theorem delete_from_schema_error_swallowed_cex :
    delete_from_schema rejectingClient "K" ["p"] = (.ok none, rejectingClient) := rfl

/-- Claim C9 (amended): when the backing store rejects the reduced schema,
`_delete_from_schema` catches the `DatabaseError`, logs a hint that existing
instance data is blocking the deletion, and returns `None` to the caller -
the store-error is swallowed rather than surfaced - while the stored schema
text is left unchanged. -/
theorem delete_from_schema_swallows_store_error
    (c : TDBClient) (entity_kind : String) (property_kinds : List String)
    (h : c.accept (reduceSchema entity_kind property_kinds (get_schema c)) = false) :
    delete_from_schema c entity_kind property_kinds = (.ok none, c) := by
  unfold delete_from_schema TDBClient.update_triples
  dsimp only
  rw [if_neg (by rw [h]; simp)]

/-- Witness for the amended claim C9 at a concrete rejecting client. -/
theorem delete_from_schema_swallows_store_error_witness :
    delete_from_schema rejectingClient "Dog" ["name"] = (.ok none, rejectingClient) :=
  delete_from_schema_swallows_store_error rejectingClient "Dog" ["name"] rfl

/-- Claim C10: when the data model contains the relationship kind but no
triple matches `(entity_kind_a, entity_kind_b)`, `delete_relationship_kind`
completes without raising - the loop removes nothing, the unchanged data
model is rewritten to the store, and success is logged. -/
theorem delete_relationship_kind_no_match
    (data_model : DataModel) (triples : List RelTriple) (a rel b : String)
    (hkeys : (data_model.map Prod.fst).Nodup)
    (hrel : dlookup data_model rel = some triples)
    (hno : ∀ t ∈ triples, ¬(t.1 = a ∧ t.2.1 = b)) :
    delete_relationship_kind (some data_model) a rel b = (some data_model, .ok ()) := by
  unfold delete_relationship_kind
  dsimp only
  rw [hrel]
  dsimp only
  rw [delRelLoop_no_match triples a b hno, dset_eq_self data_model rel triples hkeys hrel]

/-- Witness for claim C10: deleting the unregistered pairing `(X, R, Y)`
while `R` only pairs `(A, B)` succeeds and leaves the data model unchanged. -/
theorem delete_relationship_kind_no_match_witness :
    delete_relationship_kind (some c2DataModel) "X" "R" "Y" = (some c2DataModel, .ok ()) :=
  delete_relationship_kind_no_match c2DataModel [("A", "B", [])] "X" "R" "Y"
    (by decide) (by decide) (by decide)

end DeepPavlovKG
